import Mathlib

/-!
Shallow embedding of the Windows Automation Toolkit (Python) for
specification checking.  Text is modelled as `List Char` (ASCII-faithful:
`lower` maps only A-Z).  Child processes are modelled by an explicit
outcome type; fallible operations return `Option` / `Except`.
-/

/-- The character `{` (written via its code point to keep literals plain). -/
def lbrace : Char := Char.ofNat 123

/-- The character `}`. -/
def rbrace : Char := Char.ofNat 125

/-- Python `str.isdigit`-style hex-digit test used by the GUID regexes:
the character class `[0-9a-fA-F]`. -/
def isHexDigit (c : Char) : Bool :=
  (decide ('0' ≤ c) && decide (c ≤ '9')) ||
  (decide ('a' ≤ c) && decide (c ≤ 'f')) ||
  (decide ('A' ≤ c) && decide (c ≤ 'F'))

/-- The character class `[0-9a-fA-F-]` of the GUID regexes. -/
def isHexOrDash (c : Char) : Bool :=
  isHexDigit c || decide (c = '-')

/-- ASCII whitespace recognised by Python `str.strip`. -/
def isSpaceChar (c : Char) : Bool :=
  decide (c = ' ') || decide (c = Char.ofNat 9) || decide (c = Char.ofNat 10) ||
  decide (c = Char.ofNat 13) || decide (c = Char.ofNat 11) || decide (c = Char.ofNat 12)

/-- Drop leading whitespace. -/
def dropSpaces : List Char → List Char
  | [] => []
  | c :: rest => if isSpaceChar c then dropSpaces rest else c :: rest

/-- Python `str.strip`: remove whitespace from both ends. -/
def stripChars (s : List Char) : List Char :=
  ((dropSpaces ((dropSpaces s).reverse)).reverse)

/-- Python `str.lower`, restricted to ASCII letters. -/
def lowerChar (c : Char) : Char :=
  if 'A' ≤ c ∧ c ≤ 'Z' then Char.ofNat (c.toNat + 32) else c

/-- Lowercase a whole text. -/
def lowerStr (s : List Char) : List Char := s.map lowerChar

/-- Does `s` start with `pat`? -/
def startsWithChars : List Char → List Char → Bool
  | [], _ => true
  | _ :: _, [] => false
  | p :: ps, c :: cs => decide (p = c) && startsWithChars ps cs

/-- Python `pat in s`: substring containment. -/
def containsChars : List Char → List Char → Bool
  | [], pat => startsWithChars pat []
  | c :: rest, pat => startsWithChars pat (c :: rest) || containsChars rest pat

/-- Consume exactly `n` characters satisfying `p`, returning the consumed
run and the remainder. -/
def splitN (p : Char → Bool) : Nat → List Char → Option (List Char × List Char)
  | 0, s => some ([], s)
  | _ + 1, [] => none
  | n + 1, c :: s =>
    if p c then (splitN p n s).map (fun br => (c :: br.1, br.2)) else none

/-- Consume one expected character. -/
def expectChar (c : Char) : List Char → Option (List Char)
  | [] => none
  | d :: s => if d = c then some s else none

/-- The strict GUID shape `{8hex-4hex-4hex-4hex-12hex}` matched at the head
of the input; returns the remainder after the closing brace on success. -/
def guidCore (s : List Char) : Option (List Char) :=
  (expectChar lbrace s).bind fun s0 =>
  (splitN isHexDigit 8 s0).bind fun p1 =>
  (expectChar '-' p1.2).bind fun s1 =>
  (splitN isHexDigit 4 s1).bind fun p2 =>
  (expectChar '-' p2.2).bind fun s2 =>
  (splitN isHexDigit 4 s2).bind fun p3 =>
  (expectChar '-' p3.2).bind fun s3 =>
  (splitN isHexDigit 4 s3).bind fun p4 =>
  (expectChar '-' p4.2).bind fun s4 =>
  (splitN isHexDigit 12 s4).bind fun p5 =>
  expectChar rbrace p5.2

/-- Whether a strict `{8-4-4-4-12}` GUID occurs at the head of `s`. -/
def wellFormedGuidAt (s : List Char) : Bool := (guidCore s).isSome

/-- Whether some substring of `s` is a strict `{8-4-4-4-12}` GUID. -/
def containsWellFormedGuid : List Char → Bool
  | [] => wellFormedGuidAt []
  | c :: rest => wellFormedGuidAt (c :: rest) || containsWellFormedGuid rest

/-- Whether a string is exactly a strict braced GUID (nothing after it). -/
def isWellFormedBracedGuid (g : List Char) : Bool :=
  decide (guidCore g = some [])

/-- A match of the pattern `\x7b[0-9a-fA-F-]{36}\x7d` (the regex of
`extract_guid_from_output`) anchored at the head of `s`: returns the
matched 38-character substring. -/
def looseGuidAt (s : List Char) : Option (List Char) :=
  match s with
  | [] => none
  | c :: rest =>
    if c = lbrace then
      match splitN isHexOrDash 36 rest with
      | some (body, r) =>
        match r with
        | d :: _ => if d = rbrace then some (c :: (body ++ [d])) else none
        | [] => none
      | none => none
    else none

/-- `PowerManagement.extract_guid_from_output`: `re.search` of the pattern
`\x7b[0-9a-fA-F-]{36}\x7d` over the output — the leftmost match, or `None`. -/
def extract_guid_from_output : List Char → Option (List Char)
  | [] => none
  | c :: rest =>
    match looseGuidAt (c :: rest) with
    | some g => some g
    | none => extract_guid_from_output rest

/-- Whether the loose pattern matches anywhere in `s`. -/
def containsLooseGuid : List Char → Bool
  | [] => (looseGuidAt []).isSome
  | c :: rest => (looseGuidAt (c :: rest)).isSome || containsLooseGuid rest

/-- Reports produced by `unlock_ultimate_performance` (each corresponds to
one printed message / early return in the Python function). -/
inductive UnlockReport
  | cancelled
  | duplicateFailed
  | noGuid
  | created (guid : List Char)
deriving DecidableEq

/-- `PowerManagement.unlock_ultimate_performance`, with the confirmation
answer and the result of the `powercfg -duplicatescheme` run supplied as
inputs.  The function is total: every branch returns a report value. -/
def unlock_ultimate_performance (confirmed : Bool)
    (dup : Bool × List Char) : UnlockReport :=
  if !confirmed then .cancelled
  else if dup.1 then
    match extract_guid_from_output dup.2 with
    | some g => .created g
    | none => .noGuid
  else .duplicateFailed

/-- Outcome of one `subprocess.run` call as observed by the caller:
the child completed with an exit code and captured streams, the call
timed out (`subprocess.TimeoutExpired`), or it raised another exception
whose message is recorded. -/
inductive ProcResult
  | completed (returncode : Int) (stdout stderr : List Char)
  | timedOut
  | raised (msg : List Char)
deriving DecidableEq

/-- `SystemUtils.run_command`: returns `(success, output)` with
`success = (returncode == 0)`, stdout on success and stderr on failure;
timeout and generic exception both yield `success = false` and differ
only in the returned message. -/
def run_command : ProcResult → Bool × List Char
  | .completed rc out err => if rc = 0 then (true, out) else (false, err)
  | .timedOut => (false, "Command timed out".toList)
  | .raised m => (false, m)

/-- `SystemUtils.run_powershell_command` (the `bypass_policy` flag only
changes the argument vector, not the returned value).  In interactive
mode output is not captured and success is assumed whenever no exception
occurs; in non-interactive mode the result mirrors `run_command`. -/
def run_powershell_command (interactive : Bool) : ProcResult → Bool × List Char
  | .completed rc out err =>
    if interactive then (true, [])
    else if rc = 0 then (true, out) else (false, err)
  | .timedOut => (false, "Command timed out".toList)
  | .raised m => (false, m)

/-- `SystemUtils.run_powershell_script` result value: `False` when the
confirmation is declined; once the temporary script runs, `True` is
returned regardless of the child's exit code (the code comments say so
explicitly); `subprocess.run` is called without a timeout, and any
exception (including a `TimeoutExpired`, which is an `Exception`) is
caught and yields `False`. -/
def run_powershell_script (confirmed : Bool) (res : ProcResult) : Bool :=
  if !confirmed then false
  else
    match res with
    | .completed _ _ _ => true
    | .timedOut => false
    | .raised _ => false

/-- The command string built by `run_powershell_script` for a script URL
(the `if/elif` chain over marker substrings, first match wins). -/
def ps_command_for (url : List Char) : List Char :=
  if containsChars url "get.activated.win".toList then
    "irm ".toList ++ url ++ " | iex".toList
  else if containsChars url "win11debloat.raphi.re".toList then
    "& ([scriptblock]::Create((irm \"".toList ++ url ++ "\")))".toList
  else if containsChars url "christitus.com/win".toList then
    "iwr -useb ".toList ++ url ++ " | iex".toList
  else if containsChars url "git.io/debloat11".toList then
    "iwr ".toList ++ url ++ "|iex".toList
  else
    "[scriptblock]::Create((irm \"".toList ++ url ++ "\"))".toList

/-- `POWERSHELL_SCRIPTS["debloat"]["win11debloat"]["url"]`. -/
def url_win11debloat : List Char := "https://win11debloat.raphi.re/".toList

/-- `POWERSHELL_SCRIPTS["debloat"]["debloat11"]["url"]`. -/
def url_debloat11 : List Char := "https://git.io/debloat11".toList

/-- `POWERSHELL_SCRIPTS["tweaks"]["windows_tweaks"]["url"]`. -/
def url_windows_tweaks : List Char := "https://christitus.com/win".toList

/-- `POWERSHELL_SCRIPTS["activation"]["activate_windows"]["url"]`. -/
def url_activate_windows : List Char := "https://get.activated.win".toList

/-- `SystemUtils.get_confirmation`, driven by the (finite prefix of the)
sequence of user inputs; `none` means no input in the sequence was
recognised, i.e. the Python loop is still prompting. -/
def get_confirmation : List (List Char) → Option Bool
  | [] => none
  | r :: rest =>
    let response := stripChars (lowerStr r)
    if response = [] ∨ response = ['y'] ∨ response = "yes".toList then some true
    else if response = ['n'] ∨ response = "no".toList then some false
    else get_confirmation rest

/-- The text of one rendered menu option, `"[key] title"`, with the
`option.get('title', 'Unknown')` default for a missing title. -/
def option_text (kv : List Char × Option (List Char)) : List Char :=
  '[' :: kv.1 ++ "] ".toList ++ kv.2.getD "Unknown".toList

/-- The `max_option_length` value computed (and then left unused) by
`SystemUtils.print_menu`: the maximum of the title length and all
option-line lengths, raised to the minimum of 40. -/
def computed_menu_width (title : List Char)
    (options : List (List Char × Option (List Char))) : Nat :=
  max (options.foldl (fun acc kv => max acc (option_text kv).length) title.length) 40

/-- The lines printed by `SystemUtils.print_menu`, in order: the padded
title, a dash underline of the title's length, one padded line per
option, and the final blank line.  The computed width is bound exactly
as in the source and does not influence the rendering. -/
def print_menu (title : List Char)
    (options : List (List Char × Option (List Char))) : List (List Char) :=
  let _max_option_length := computed_menu_width title options
  let left_padding := List.replicate 5 ' '
  (left_padding ++ title) ::
  (left_padding ++ List.replicate title.length '-') ::
  (options.map (fun kv => left_padding ++ option_text kv) ++ [[]])

/-- The width of a rendered block: the length of its longest line. -/
def block_width (lines : List (List Char)) : Nat :=
  lines.foldr (fun l acc => max l.length acc) 0

/-- The longest `"[key] title"` length over a menu's options. -/
def longest_option_text (options : List (List Char × Option (List Char))) : Nat :=
  options.foldr (fun kv acc => max (option_text kv).length acc) 0

/-- The broken validation regex of `switch_power_plan`,
`^\x7b[0-9a-fA-F-]\x7b36\x7d$` as Python parses it: since `\x7b36\}` is
not a wellformed quantifier, `re` treats the inner brace literally, so
the pattern matches exactly the six-character strings
`'\x7b' c '\x7b' '3' '6' '\x7d'` with `c` in `[0-9a-fA-F-]`. -/
def broken_guid_match (s : List Char) : Bool :=
  match s with
  | [a, c, b, d3, d6, e] =>
    decide (a = lbrace) && isHexOrDash c && decide (b = lbrace) &&
    decide (d3 = '3') && decide (d6 = '6') && decide (e = rbrace)
  | _ => false

/-- Reports produced by `switch_power_plan` (one per printed message /
return path of the Python function). -/
inductive SwitchReport
  | listFailed
  | noGuid
  | invalidFormat
  | activated
  | activateFailed
  | notConfirmed
deriving DecidableEq

/-- `PowerManagement.switch_power_plan`, with the outcome of
`powercfg -list`, the user's typed GUID, the confirmation answer, and
the outcome of `activate_power_plan` supplied as inputs. -/
def switch_power_plan (listOK : Bool) (typed : List Char)
    (confirmed : Bool) (activateOK : Bool) : SwitchReport :=
  if !listOK then .listFailed
  else
    let guid := stripChars typed
    if guid = [] then .noGuid
    else if !broken_guid_match guid then .invalidFormat
    else if confirmed then
      if activateOK then .activated else .activateFailed
    else .notConfirmed

/-- Shared stderr reclassification of the winget installers: a non-zero
exit is reported as success iff the lowercased stderr contains
`"already installed"` or `"already exists"`. -/
def winget_already_installed (err : List Char) : Bool :=
  containsChars (lowerStr err) "already installed".toList ||
  containsChars (lowerStr err) "already exists".toList

/-- `AppInstaller.install_app_winget` result value given the child
process outcome. -/
def install_app_winget (res : ProcResult) : Bool :=
  match res with
  | .completed rc _ err =>
    if rc = 0 then true
    else if winget_already_installed err then true
    else false
  | .timedOut => false
  | .raised _ => false

/-- `AppInstaller.install_app_winget_version` result value given the
child process outcome (identical stderr reclassification). -/
def install_app_winget_version (res : ProcResult) : Bool :=
  match res with
  | .completed rc _ err =>
    if rc = 0 then true
    else if winget_already_installed err then true
    else false
  | .timedOut => false
  | .raised _ => false

/-- `AIToolsInstaller.install_npm_tool` result value: a non-zero exit is
a success iff the lowercased stderr contains `"already installed"` or
`"up to date"`. -/
def install_npm_tool (res : ProcResult) : Bool :=
  match res with
  | .completed rc _ err =>
    if rc = 0 then true
    else if containsChars (lowerStr err) "already installed".toList ||
            containsChars (lowerStr err) "up to date".toList then true
    else false
  | .timedOut => false
  | .raised _ => false

/-- The winget argument vector built by `install_app_winget_version`:
`--version` is inserted only when the requested version is not
`"latest"` (case-insensitively). -/
def winget_install_command (app_id version : List Char) : List (List Char) :=
  let base := ["winget".toList, "install".toList, "--id".toList, app_id]
  let base :=
    if lowerStr version ≠ "latest".toList then
      base ++ ["--version".toList, version]
    else base
  base ++ ["--accept-package-agreements".toList, "--accept-source-agreements".toList,
           "--silent".toList, "--ignore-warnings".toList]

/-- An app entry of `ESSENTIAL_APPS` (or one added at runtime):
package identifier and display name. -/
structure AppEntry where
  id : List Char
  name : List Char
deriving DecidableEq

/-- `AppInstaller.install_all_apps`, modelled by the list of spawned
installer argument vectors and the apps list after the call.  The
confirmation prompt is driven by the user-input sequence; `none` means
the prompt never received a recognised answer. -/
def install_all_apps (inputs : List (List Char)) (apps : List AppEntry) :
    Option (List (List (List Char)) × List AppEntry) :=
  match get_confirmation inputs with
  | none => none
  | some false => some ([], apps)
  | some true =>
    some (apps.map (fun a => winget_install_command a.id "latest".toList), apps)

/-- Exception classes relevant to the probes of `SystemUtils`. -/
inductive RunExc
  | calledProcessError
  | fileNotFoundError
  | timeoutExpired
  | otherException
deriving DecidableEq

/-- `ctypes.windll.shell32.IsUserAnAdmin()` either returns a value or
raises; `check_admin_privileges` wraps it in a bare `except` that
returns `False`. -/
def check_admin_privileges : Except RunExc Bool → Bool
  | .ok b => b
  | .error _ => false

/-- The PATH-variant lists tried by `check_program_exists`. -/
def node_variants : List (List Char) :=
  ["node".toList, "nodejs".toList, "node.exe".toList, "nodejs.exe".toList]

/-- npm variants tried on PATH. -/
def npm_variants : List (List Char) :=
  ["npm".toList, "npm.cmd".toList, "npm.exe".toList]

/-- Hardcoded fallback locations probed for node. -/
def common_node_paths : List (List Char) :=
  ["C:\\Program Files\\nodejs\\node.exe".toList,
   "C:\\Program Files (x86)\\nodejs\\node.exe".toList,
   "~\\AppData\\Local\\Programs\\nodejs\\node.exe".toList]

/-- Hardcoded fallback locations probed for npm. -/
def common_npm_paths : List (List Char) :=
  ["C:\\Program Files\\nodejs\\npm.cmd".toList,
   "C:\\Program Files (x86)\\nodejs\\npm.cmd".toList,
   "~\\AppData\\Local\\Programs\\nodejs\\npm.cmd".toList]

/-- One `subprocess.run([exe, "--version"], check=True, ...)` probe:
`env exe = none` means the probe succeeded, otherwise the raised
exception class. -/
def ProbeEnv : Type := List Char → Option RunExc

/-- The PATH-variant loop of `check_program_exists`: each variant's
`CalledProcessError`, `FileNotFoundError` and `TimeoutExpired` are
swallowed (`continue`); any other exception propagates. -/
def probe_variants (env : ProbeEnv) : List (List Char) → Except RunExc Bool
  | [] => .ok false
  | v :: rest =>
    match env v with
    | none => .ok true
    | some .calledProcessError => probe_variants env rest
    | some .fileNotFoundError => probe_variants env rest
    | some .timeoutExpired => probe_variants env rest
    | some e => .error e

/-- The hardcoded-path loop of `check_program_exists`: paths failing the
`os.path.exists` guard are skipped; for probed paths only
`CalledProcessError` and `TimeoutExpired` are swallowed — a
`FileNotFoundError` (or anything else) there propagates. -/
def probe_paths (env : ProbeEnv) (fsExists : List Char → Bool) :
    List (List Char) → Except RunExc Bool
  | [] => .ok false
  | p :: rest =>
    if fsExists p then
      match env p with
      | none => .ok true
      | some .calledProcessError => probe_paths env fsExists rest
      | some .timeoutExpired => probe_paths env fsExists rest
      | some e => .error e
    else probe_paths env fsExists rest

/-- `SystemUtils.check_program_exists`: the node/npm special cases try
name variants and then hardcoded install paths; every other program is
probed once, with `CalledProcessError`, `FileNotFoundError` and
`TimeoutExpired` mapped to `False`.  An uncaught exception surfaces as
`.error`. -/
def check_program_exists (program_name : List Char) (env : ProbeEnv)
    (fsExists : List Char → Bool) : Except RunExc Bool :=
  if lowerStr program_name = "node".toList ∨ lowerStr program_name = "nodejs".toList then
    match probe_variants env node_variants with
    | .ok true => .ok true
    | .ok false => probe_paths env fsExists common_node_paths
    | .error e => .error e
  else if lowerStr program_name = "npm".toList then
    match probe_variants env npm_variants with
    | .ok true => .ok true
    | .ok false => probe_paths env fsExists common_npm_paths
    | .error e => .error e
  else
    match env program_name with
    | none => .ok true
    | some .calledProcessError => .ok false
    | some .fileNotFoundError => .ok false
    | some .timeoutExpired => .ok false
    | some e => .error e

/-- `os.path.join` on Windows: concatenation with a backslash separator
(both call sites join a directory with a plain relative component). -/
def os_path_join (a b : List Char) : List Char :=
  a ++ '\\' :: b

/-- `settings.AHK_SCRIPT_CONTENT`, the fixed script template (braces
written as escapes). -/
def AHK_SCRIPT_CONTENT : List Char :=
  ("; ===============================\n" ++
   "; Full F3 -> Left Mouse Button\n" ++
   "; ===============================\n" ++
   "\n" ++
   "#Requires AutoHotkey v2.0\n" ++
   "\n" ++
   "; --- Single Click / Hold / Drag ---\n" ++
   "F3::\n" ++
   "\x7b\n" ++
   "    SendInput(\"\x7bLButton down\x7d\")   ; Press & hold left button\n" ++
   "    KeyWait(\"F3\")                 ; Wait until F3 is released\n" ++
   "    SendInput(\"\x7bLButton up\x7d\")     ; Release button\n" ++
   "\x7d\n" ++
   "\n" ++
   "; AHK v2 version - Remap Middle Mouse Button to Back\n" ++
   "MButton::Send(\"!\x7bLeft\x7d\")\n").toList

/-- `AutoHotKeyManager.ahk_script_name`. -/
def ahk_script_name : List Char := "automation.ahk".toList

/-- `AutoHotKeyManager.get_script_path`: `<Documents>\AutoHotKey\automation.ahk`. -/
def get_script_path (documents_folder : List Char) : List Char :=
  os_path_join (os_path_join documents_folder "AutoHotKey".toList) ahk_script_name

/-- The filesystem as a map from paths to file contents. -/
def FS : Type := List Char → Option (List Char)

/-- `AutoHotKeyManager.create_script`: after `ensure_directory_exists`
(whose success is the `dirOK` input), the template is written to the
script path with `open(..., 'w')` (truncate/overwrite semantics) and the
path is reported; on directory failure nothing is written and no path is
reported. -/
def create_script (dirOK : Bool) (documents_folder : List Char) (fs : FS) :
    FS × Option (List Char) :=
  if !dirOK then (fs, none)
  else
    let script_path := get_script_path documents_folder
    (fun p => if p = script_path then some AHK_SCRIPT_CONTENT else fs p,
     some script_path)

/-! ### Supporting lemmas -/

theorem expectChar_eq_some {c : Char} {s t : List Char} :
    expectChar c s = some t ↔ s = c :: t := by
  cases s with
  | nil => simp [expectChar]
  | cons d s =>
    by_cases h : d = c
    · subst h; simp [expectChar]
    · simp [expectChar, h]

theorem splitN_eq_some {p : Char → Bool} :
    ∀ {n : Nat} {s b r : List Char}, splitN p n s = some (b, r) →
      b.length = n ∧ b.all p = true ∧ s = b ++ r := by
  intro n
  induction n with
  | zero =>
    intro s b r h
    simp [splitN] at h
    obtain ⟨hb, hr⟩ := h
    subst hb; subst hr
    simp
  | succ n ih =>
    intro s b r h
    cases s with
    | nil => simp [splitN] at h
    | cons c s =>
      simp only [splitN] at h
      by_cases hc : p c
      · simp only [hc, if_pos, Option.map_eq_some'] at h
        obtain ⟨⟨b', r'⟩, hsp, heq⟩ := h
        obtain ⟨h1, h2⟩ := Prod.mk.injEq .. ▸ heq
        obtain ⟨hl, ha, hs⟩ := ih hsp
        subst h1; subst h2
        refine ⟨by simp [hl], by simp [hc, ha], by simp [hs]⟩
      · simp [hc] at h

theorem splitN_of_all {p : Char → Bool} :
    ∀ {b : List Char}, b.all p = true →
      ∀ (r : List Char), splitN p b.length (b ++ r) = some (b, r) := by
  intro b
  induction b with
  | nil => intro _ r; simp [splitN]
  | cons c b ih =>
    intro hall r
    simp only [List.all_cons, Bool.and_eq_true] at hall
    simp [splitN, hall.1, ih hall.2 r]

theorem splitN_append {p : Char → Bool} :
    ∀ {m n : Nat} {s b1 r1 b2 r2 : List Char},
      splitN p m s = some (b1, r1) → splitN p n r1 = some (b2, r2) →
      splitN p (m + n) s = some (b1 ++ b2, r2) := by
  intro m n s b1 r1 b2 r2 h1 h2
  obtain ⟨hl1, ha1, hs1⟩ := splitN_eq_some h1
  obtain ⟨hl2, ha2, hs2⟩ := splitN_eq_some h2
  subst hs1; subst hs2
  have hall : (b1 ++ b2).all p = true := by simp [ha1, ha2]
  have := splitN_of_all hall r2
  rwa [List.length_append, hl1, hl2, List.append_assoc] at this

theorem isHexOrDash_of_isHexDigit {c : Char} (h : isHexDigit c = true) :
    isHexOrDash c = true := by
  simp [isHexOrDash, h]

theorem isHexOrDash_dash : isHexOrDash '-' = true := by decide

theorem all_isHexOrDash_of_all_isHexDigit {l : List Char}
    (h : l.all isHexDigit = true) : l.all isHexOrDash = true := by
  rw [List.all_eq_true] at h ⊢
  exact fun c hc => isHexOrDash_of_isHexDigit (h c hc)

/-- Decomposition of a strict GUID match: the input starts with a brace,
36 hex-or-dash characters (the 8-4-4-4-12 groups and their dashes) and a
closing brace, followed by the remainder. -/
theorem guidCore_decomp {s t : List Char} (h : guidCore s = some t) :
    ∃ body : List Char, s = lbrace :: (body ++ rbrace :: t) ∧
      body.length = 36 ∧ body.all isHexOrDash = true := by
  simp only [guidCore, Option.bind_eq_some] at h
  obtain ⟨s0, hs0, ⟨b1, r1⟩, h1, s1, hd1, ⟨b2, r2⟩, h2, s2, hd2,
    ⟨b3, r3⟩, h3, s3, hd3, ⟨b4, r4⟩, h4, s4, hd4, ⟨b5, r5⟩, h5, hend⟩ := h
  rw [expectChar_eq_some] at hs0 hd1 hd2 hd3 hd4 hend
  obtain ⟨hl1, ha1, he1⟩ := splitN_eq_some h1
  obtain ⟨hl2, ha2, he2⟩ := splitN_eq_some h2
  obtain ⟨hl3, ha3, he3⟩ := splitN_eq_some h3
  obtain ⟨hl4, ha4, he4⟩ := splitN_eq_some h4
  obtain ⟨hl5, ha5, he5⟩ := splitN_eq_some h5
  have hd1' : r1 = '-' :: s1 := hd1
  have hd2' : r2 = '-' :: s2 := hd2
  have hd3' : r3 = '-' :: s3 := hd3
  have hd4' : r4 = '-' :: s4 := hd4
  have hend' : r5 = rbrace :: t := hend
  refine ⟨b1 ++ '-' :: b2 ++ '-' :: b3 ++ '-' :: b4 ++ '-' :: b5, ?_, ?_, ?_⟩
  · rw [hs0, he1, hd1', he2, hd2', he3, hd3', he4, hd4', he5, hend']
    simp
  · simp [hl1, hl2, hl3, hl4, hl5]
  · simp [List.all_append, List.all_cons,
      all_isHexOrDash_of_all_isHexDigit ha1, all_isHexOrDash_of_all_isHexDigit ha2,
      all_isHexOrDash_of_all_isHexDigit ha3, all_isHexOrDash_of_all_isHexDigit ha4,
      all_isHexOrDash_of_all_isHexDigit ha5, isHexOrDash_dash]

/-- A strict GUID at the head of `s` is in particular a match of the
loose pattern of `extract_guid_from_output`. -/
theorem looseGuidAt_of_guidCore {s t : List Char} (h : guidCore s = some t) :
    ∃ body : List Char, looseGuidAt s = some (lbrace :: (body ++ [rbrace])) ∧
      body.length = 36 ∧ body.all isHexOrDash = true := by
  obtain ⟨body, hs, hlen, hall⟩ := guidCore_decomp h
  refine ⟨body, ?_, hlen, hall⟩
  subst hs
  have hsplit : splitN isHexOrDash 36 (body ++ rbrace :: t) = some (body, rbrace :: t) := by
    have := splitN_of_all hall (rbrace :: t)
    rwa [hlen] at this
  simp [looseGuidAt, hsplit]

/-- Shape of a loose-pattern match: an opening brace, 36 hex-or-dash
characters, a closing brace. -/
theorem looseGuidAt_shape {s g : List Char} (h : looseGuidAt s = some g) :
    ∃ body : List Char, g = lbrace :: (body ++ [rbrace]) ∧
      body.length = 36 ∧ body.all isHexOrDash = true := by
  cases s with
  | nil => simp [looseGuidAt] at h
  | cons c rest =>
    simp only [looseGuidAt] at h
    by_cases hc : c = lbrace
    · simp only [hc, if_pos] at h
      cases hsp : splitN isHexOrDash 36 rest with
      | none => simp [hsp] at h
      | some br =>
        obtain ⟨body, r⟩ := br
        simp only [hsp] at h
        cases r with
        | nil => simp at h
        | cons d r' =>
          by_cases hd : d = rbrace
          · simp only [hd, if_pos] at h
            obtain ⟨hl, ha, _⟩ := splitN_eq_some hsp
            refine ⟨body, ?_, hl, ha⟩
            exact (Option.some_inj.mp h).symm
          · simp [hd] at h
    · simp [hc] at h

theorem extract_isSome_eq_containsLoose (s : List Char) :
    (extract_guid_from_output s).isSome = containsLooseGuid s := by
  induction s with
  | nil => rfl
  | cons c rest ih =>
    simp only [extract_guid_from_output, containsLooseGuid]
    cases h : looseGuidAt (c :: rest) with
    | none => simp [h, ih]
    | some g => simp [h]

/-- If some substring of `s` is a strict `{8-4-4-4-12}` GUID, the
extraction by the loose pattern succeeds. -/
theorem extract_isSome_of_containsWellFormed {s : List Char}
    (h : containsWellFormedGuid s = true) :
    (extract_guid_from_output s).isSome = true := by
  induction s with
  | nil => simp [containsWellFormedGuid, wellFormedGuidAt, guidCore, expectChar] at h
  | cons c rest ih =>
    simp only [containsWellFormedGuid, Bool.or_eq_true] at h
    cases h with
    | inl hwf =>
      simp only [wellFormedGuidAt, Option.isSome_iff_exists] at hwf
      obtain ⟨t, ht⟩ := hwf
      obtain ⟨body, hloose, _, _⟩ := looseGuidAt_of_guidCore ht
      simp [extract_guid_from_output, hloose]
    | inr hrest =>
      have := ih hrest
      simp only [extract_guid_from_output]
      cases hl : looseGuidAt (c :: rest) with
      | none => simpa [hl] using this
      | some g => simp [hl]

/-- Shape of any extracted value. -/
theorem extract_some_shape {s g : List Char}
    (h : extract_guid_from_output s = some g) :
    ∃ body : List Char, g = lbrace :: (body ++ [rbrace]) ∧
      body.length = 36 ∧ body.all isHexOrDash = true := by
  induction s with
  | nil => simp [extract_guid_from_output] at h
  | cons c rest ih =>
    simp only [extract_guid_from_output] at h
    cases hl : looseGuidAt (c :: rest) with
    | none => rw [hl] at h; exact ih h
    | some g' =>
      rw [hl] at h
      exact Option.some_inj.mp h ▸ looseGuidAt_shape hl

/-- The length of an exact braced GUID is 38. -/
theorem isWellFormedBracedGuid_length {g : List Char}
    (h : isWellFormedBracedGuid g = true) : g.length = 38 := by
  simp only [isWellFormedBracedGuid, decide_eq_true_eq] at h
  obtain ⟨body, hg, hlen, _⟩ := guidCore_decomp h
  subst hg
  simp [hlen]

/-- The broken pattern of `switch_power_plan` only matches strings of
length six. -/
theorem broken_guid_match_length {g : List Char}
    (h : broken_guid_match g = true) : g.length = 6 := by
  unfold broken_guid_match at h
  split at h
  · rename_i a c b d3 d6 e
    rfl
  · exact absurd h (by simp)

/-! ### Claim C1 -/

/-- C1, counterexample: the extraction regex `\x7b[0-9a-fA-F-]{36}\x7d`
does not enforce the 8-4-4-4-12 grouping.  The output consisting of a
brace, 36 zeros and a brace contains no substring of the form
`\x7b8hex-4hex-4hex-4hex-12hex\x7d`, so the claim requires
`extract_guid_from_output` to return `None`; the code returns the match. -/
theorem C1_claim_counterexample :
    containsWellFormedGuid
      "\x7b000000000000000000000000000000000000\x7d".toList = false ∧
    extract_guid_from_output
      "\x7b000000000000000000000000000000000000\x7d".toList =
      some "\x7b000000000000000000000000000000000000\x7d".toList := by
  constructor
  · decide
  · decide

/-- C1, amended: `extract_guid_from_output` returns the leftmost
substring consisting of a brace, 36 hex-or-hyphen characters and a
closing brace (a superset of well-formed GUIDs): it succeeds exactly
when such a substring exists, in particular whenever a well-formed
`\x7b8-4-4-4-12\x7d` GUID occurs; every returned value has that loose
shape; and when no such substring exists `unlock_ultimate_performance`
reports the no-GUID failure and returns normally. -/
theorem C1_extract_guid_amended (s : List Char) :
    ((extract_guid_from_output s).isSome = containsLooseGuid s) ∧
    (containsWellFormedGuid s = true →
      (extract_guid_from_output s).isSome = true) ∧
    (∀ g, extract_guid_from_output s = some g →
      ∃ body : List Char, g = lbrace :: (body ++ [rbrace]) ∧
        body.length = 36 ∧ body.all isHexOrDash = true) ∧
    (extract_guid_from_output s = none →
      unlock_ultimate_performance true (true, s) = .noGuid) := by
  refine ⟨extract_isSome_eq_containsLoose s,
    fun h => extract_isSome_of_containsWellFormed h,
    fun g h => extract_some_shape h,
    fun h => ?_⟩
  simp [unlock_ultimate_performance, h]

/-- C1 witness: the amended theorem applied at a concrete well-formed
GUID output and at a concrete GUID-free output. -/
theorem C1_extract_guid_amended_witness :
    (extract_guid_from_output
      "GUID: \x7be9a42b02-d5df-448d-aa00-03f14749eb61\x7d ok".toList).isSome = true ∧
    unlock_ultimate_performance true (true, "no guid here".toList) = .noGuid :=
  ⟨(C1_extract_guid_amended
      "GUID: \x7be9a42b02-d5df-448d-aa00-03f14749eb61\x7d ok".toList).2.1 (by decide),
   (C1_extract_guid_amended "no guid here".toList).2.2.2 (by decide)⟩

/-! ### Claim C4 -/

/-- C4, counterexample: the claim says no user input can reach the
activation step of the Switch Power Plan option; the six-character
input `\x7ba\x7b36\x7d` matches the broken pattern and, with the listing
succeeding and the confirmation affirmative, activation is reached. -/
theorem C4_claim_counterexample :
    switch_power_plan true "\x7ba\x7b36\x7d".toList true true =
      .activated := by decide

/-- C4, amended: the inner `\x7b36\x7d` of the validation regex is
parsed literally, so the pattern matches exactly the six-character
strings brace/class-char/brace/3/6/brace.  Hence no well-formed braced
GUID matches — every such input is answered `Invalid GUID format`
without reaching `activate_power_plan` — but some (non-GUID) inputs do
reach the activation step. -/
theorem C4_switch_power_plan_amended :
    (∀ g : List Char, isWellFormedBracedGuid g = true →
      broken_guid_match g = false) ∧
    (∀ (typed : List Char) (c a : Bool),
      isWellFormedBracedGuid (stripChars typed) = true →
      switch_power_plan true typed c a = .invalidFormat) ∧
    (∃ typed : List Char, switch_power_plan true typed true true = .activated) := by
  have h1 : ∀ g : List Char, isWellFormedBracedGuid g = true →
      broken_guid_match g = false := by
    intro g hg
    by_contra hbm
    rw [Bool.not_eq_false] at hbm
    have := broken_guid_match_length hbm
    rw [isWellFormedBracedGuid_length hg] at this
    exact absurd this (by decide)
  refine ⟨h1, fun typed c a h => ?_, ⟨"\x7b-\x7b36\x7d".toList, by decide⟩⟩
  have hne : stripChars typed ≠ [] := by
    intro he
    rw [he] at h
    exact absurd h (by decide)
  simp [switch_power_plan, hne, h1 _ h]

/-- C4 witness: the amended theorem applied to the concrete well-formed
GUID of `ULTIMATE_PERFORMANCE_GUID` in braces. -/
theorem C4_switch_power_plan_amended_witness :
    switch_power_plan true
      "\x7be9a42b02-d5df-448d-aa00-03f14749eb61\x7d".toList true true =
      .invalidFormat :=
  (C4_switch_power_plan_amended).2.1
    "\x7be9a42b02-d5df-448d-aa00-03f14749eb61\x7d".toList true true (by decide)

/-! ### Claim C2 -/

/-- C2, counterexample: the claim requires every command runner to report
success iff the child exited 0; `run_powershell_script` reports success
on exit code 1 (and returns a bare boolean, not a pair), and interactive
`run_powershell_command` likewise reports success on exit code 1. -/
theorem C2_claim_counterexample :
    run_powershell_script true (.completed 1 [] []) = true ∧
    (run_powershell_command true (.completed 1 [] [])).1 = true ∧
    (1 : Int) ≠ 0 := by
  refine ⟨rfl, rfl, by decide⟩

/-- C2, amended: `run_command` and non-interactive
`run_powershell_command` return `(success, output)` with success iff
exit code 0, and their timeout and generic-exception failures differ
only in the message; but interactive `run_powershell_command` reports
`(True, "")` whenever the child completes, whatever its exit code, and
`run_powershell_script` returns a bare boolean that is `True` for every
completed child regardless of exit code (`False` only on a declined
confirmation or an exception). -/
theorem C2_command_runner_amended (rc : Int) (out err m : List Char)
    (interactive : Bool) :
    ((run_command (.completed rc out err)).1 = true ↔ rc = 0) ∧
    run_command .timedOut = (false, "Command timed out".toList) ∧
    run_command (.raised m) = (false, m) ∧
    ((run_powershell_command false (.completed rc out err)).1 = true ↔ rc = 0) ∧
    (run_powershell_command true (.completed rc out err)).1 = true ∧
    run_powershell_command interactive .timedOut =
      (false, "Command timed out".toList) ∧
    run_powershell_command interactive (.raised m) = (false, m) ∧
    run_powershell_script true (.completed rc out err) = true ∧
    run_powershell_script true (.raised m) = false ∧
    run_powershell_script false (.completed rc out err) = false := by
  refine ⟨?_, rfl, rfl, ?_, rfl, rfl, rfl, rfl, rfl, rfl⟩
  · by_cases h : rc = 0 <;> simp [run_command, h]
  · by_cases h : rc = 0 <;> simp [run_powershell_command, h]

/-! ### Claim C3 -/

theorem foldl_max_eq {α : Type} (f : α → Nat) (a : Nat) (l : List α) :
    l.foldl (fun acc x => max acc (f x)) a =
      max a (l.foldr (fun x acc => max (f x) acc) 0) := by
  induction l generalizing a with
  | nil => simp
  | cons x xs ih =>
    simp only [List.foldl_cons, List.foldr_cons, ih (max a (f x))]
    omega

theorem foldr_padded_len (opts : List (List Char × Option (List Char))) :
    (opts.map (fun kv => List.replicate 5 ' ' ++ option_text kv)).foldr
      (fun l acc => max l.length acc) 0 =
    if opts.isEmpty then 0 else 5 + longest_option_text opts := by
  induction opts with
  | nil => simp
  | cons kv rest ih =>
    cases rest with
    | nil =>
      simp [longest_option_text]
      omega
    | cons kv2 rest2 =>
      simp only [List.map_cons, List.foldr_cons] at ih ⊢
      rw [ih]
      simp [longest_option_text]
      omega

/-- C3, counterexample: for the one-option menu `[1] B` with title `A`,
the rendered block is 10 characters wide, not the claimed
`max(L, longest option line, 40) = 40`: the computed width is never
applied to the output. -/
theorem C3_claim_counterexample :
    block_width (print_menu "A".toList [("1".toList, some "B".toList)]) ≠
      max (max "A".toList.length
        (longest_option_text [("1".toList, some "B".toList)])) 40 := by
  decide

/-- C3, amended: `print_menu` computes `max(L, longest "[key] title"
line, 40)` into `max_option_length` but never uses it; the rendered
block's width is `5 + max(L, longest "[key] title" line)` (five spaces
of fixed left padding plus the longest raw line), and the option lines
are exactly the mapping's options, once each, in insertion order. -/
theorem C3_print_menu_amended (t : List Char)
    (opts : List (List Char × Option (List Char))) :
    computed_menu_width t opts =
      max (max t.length (longest_option_text opts)) 40 ∧
    block_width (print_menu t opts) =
      5 + max t.length (longest_option_text opts) ∧
    (print_menu t opts).drop 2 =
      opts.map (fun kv => List.replicate 5 ' ' ++ option_text kv) ++ [[]] := by
  refine ⟨?_, ?_, rfl⟩
  · simp only [computed_menu_width,
      foldl_max_eq (fun kv => (option_text kv).length) t.length opts,
      longest_option_text]
  · rcases opts with _ | ⟨kv, rest⟩
    · simp [print_menu, block_width, longest_option_text]
      omega
    · simp only [print_menu, block_width, List.foldr_cons, List.foldr_append,
        List.foldr_nil, List.length_nil, List.length_append, List.length_replicate,
        Nat.max_self]
      rw [foldr_padded_len (kv :: rest)]
      simp only [List.isEmpty_cons, Bool.false_eq_true, if_false]
      omega

/-! ### Claim C5 -/

/-- C5: the four configured script URLs (the only URLs the program ever
passes to `run_powershell_script`; `POWERSHELL_SCRIPTS` is never
mutated) each produce the documented invocation idiom, and any URL
containing none of the four marker substrings produces the generic
scriptblock wrapper. -/
theorem C5_script_command_idioms :
    ps_command_for url_activate_windows =
      "irm https://get.activated.win | iex".toList ∧
    ps_command_for url_win11debloat =
      "& ([scriptblock]::Create((irm \"https://win11debloat.raphi.re/\")))".toList ∧
    ps_command_for url_windows_tweaks =
      "iwr -useb https://christitus.com/win | iex".toList ∧
    ps_command_for url_debloat11 =
      "iwr https://git.io/debloat11|iex".toList ∧
    (∀ url : List Char,
      containsChars url "get.activated.win".toList = false →
      containsChars url "win11debloat.raphi.re".toList = false →
      containsChars url "christitus.com/win".toList = false →
      containsChars url "git.io/debloat11".toList = false →
      ps_command_for url =
        "[scriptblock]::Create((irm \"".toList ++ url ++ "\"))".toList) := by
  refine ⟨by decide, by decide, by decide, by decide,
    fun url h1 h2 h3 h4 => ?_⟩
  simp only [ps_command_for, h1, h2, h3, h4]
  simp

/-- C5 witness: the generic fallback applied at a concrete unknown URL. -/
theorem C5_script_command_idioms_witness :
    ps_command_for "https://example.com/tool.ps1".toList =
      "[scriptblock]::Create((irm \"".toList ++
        "https://example.com/tool.ps1".toList ++ "\"))".toList :=
  C5_script_command_idioms.2.2.2.2 "https://example.com/tool.ps1".toList
    (by decide) (by decide) (by decide) (by decide)

/-! ### Claim C6 -/

/-- C6: when the installer child exits non-zero, the winget installers
report success exactly when the lowercased stderr contains
`"already installed"` or `"already exists"`, and the npm AI-tool
installer exactly when it contains `"already installed"` or
`"up to date"`. -/
theorem C6_already_installed_detection (rc : Int) (out err : List Char)
    (h : rc ≠ 0) :
    (install_app_winget (.completed rc out err) = true ↔
      (containsChars (lowerStr err) "already installed".toList = true ∨
       containsChars (lowerStr err) "already exists".toList = true)) ∧
    (install_app_winget_version (.completed rc out err) = true ↔
      (containsChars (lowerStr err) "already installed".toList = true ∨
       containsChars (lowerStr err) "already exists".toList = true)) ∧
    (install_npm_tool (.completed rc out err) = true ↔
      (containsChars (lowerStr err) "already installed".toList = true ∨
       containsChars (lowerStr err) "up to date".toList = true)) := by
  refine ⟨?_, ?_, ?_⟩ <;>
    simp [install_app_winget, install_app_winget_version, install_npm_tool,
      winget_already_installed, h]

/-- C6 witness: the detection applied at exit code 1 with concrete
stderr texts in mixed case. -/
theorem C6_already_installed_detection_witness :
    install_app_winget (.completed 1 [] "App Already EXISTS".toList) = true ∧
    install_npm_tool (.completed 1 [] "everything up To Date".toList) = true :=
  ⟨((C6_already_installed_detection 1 [] "App Already EXISTS".toList
      (by decide)).1).mpr (Or.inr (by decide)),
   ((C6_already_installed_detection 1 [] "everything up To Date".toList
      (by decide)).2.2).mpr (Or.inr (by decide))⟩

/-! ### Claim C7 -/

theorem probe_variants_ok (env : ProbeEnv)
    (henv : ∀ exe, env exe = none ∨ env exe = some .calledProcessError ∨
      env exe = some .timeoutExpired) :
    ∀ l : List (List Char), ∃ b, probe_variants env l = .ok b := by
  intro l
  induction l with
  | nil => exact ⟨false, rfl⟩
  | cons v rest ih =>
    rcases henv v with h | h | h
    · exact ⟨true, by simp [probe_variants, h]⟩
    · obtain ⟨b, hb⟩ := ih
      exact ⟨b, by simp [probe_variants, h, hb]⟩
    · obtain ⟨b, hb⟩ := ih
      exact ⟨b, by simp [probe_variants, h, hb]⟩

theorem probe_paths_ok (env : ProbeEnv) (fsExists : List Char → Bool)
    (henv : ∀ exe, env exe = none ∨ env exe = some .calledProcessError ∨
      env exe = some .timeoutExpired) :
    ∀ l : List (List Char), ∃ b, probe_paths env fsExists l = .ok b := by
  intro l
  induction l with
  | nil => exact ⟨false, rfl⟩
  | cons p rest ih =>
    by_cases hf : fsExists p
    · rcases henv p with h | h | h
      · exact ⟨true, by simp [probe_paths, hf, h]⟩
      · obtain ⟨b, hb⟩ := ih
        exact ⟨b, by simp [probe_paths, hf, h, hb]⟩
      · obtain ⟨b, hb⟩ := ih
        exact ⟨b, by simp [probe_paths, hf, h, hb]⟩
    · obtain ⟨b, hb⟩ := ih
      exact ⟨b, by simp [probe_paths, hf, hb]⟩

/-- C7, counterexample: the claim says no probe invocation ever
propagates an exception; in `check_program_exists` the `except` tuple
names only `CalledProcessError`, `FileNotFoundError` and
`TimeoutExpired`, so a probe raising any other exception (e.g. a
`PermissionError` from `subprocess.run`) escapes to the caller. -/
theorem C7_claim_counterexample :
    check_program_exists "winget".toList (fun _ => some .otherException)
      (fun _ => false) = .error .otherException := by rfl

/-- C7, amended: `check_admin_privileges` swallows every exception and
returns `False`; `check_program_exists` swallows `CalledProcessError`
and `TimeoutExpired` everywhere (and `FileNotFoundError` on the plain
and PATH-variant probes, where it is mapped to not-found), but an
exception of any other class propagates out of the probe. -/
theorem C7_probe_exceptions_amended :
    (∀ e : RunExc, check_admin_privileges (.error e) = false) ∧
    (∀ (name : List Char) (env : ProbeEnv) (fs : List Char → Bool),
      (∀ exe, env exe = none ∨ env exe = some .calledProcessError ∨
        env exe = some .timeoutExpired) →
      ∃ b, check_program_exists name env fs = .ok b) ∧
    (∀ (name : List Char) (env : ProbeEnv) (fs : List Char → Bool),
      lowerStr name ≠ "node".toList → lowerStr name ≠ "nodejs".toList →
      lowerStr name ≠ "npm".toList →
      env name = some .fileNotFoundError →
      check_program_exists name env fs = .ok false) := by
  refine ⟨fun e => rfl, fun name env fs henv => ?_, fun name env fs h1 h2 h3 henv => ?_⟩
  · unfold check_program_exists
    by_cases hn : lowerStr name = "node".toList ∨ lowerStr name = "nodejs".toList
    · rw [if_pos hn]
      obtain ⟨b, hb⟩ := probe_variants_ok env henv node_variants
      cases b
      · obtain ⟨b2, hb2⟩ := probe_paths_ok env fs henv common_node_paths
        exact ⟨b2, by rw [hb, hb2]⟩
      · exact ⟨true, by rw [hb]⟩
    · rw [if_neg hn]
      by_cases hm : lowerStr name = "npm".toList
      · rw [if_pos hm]
        obtain ⟨b, hb⟩ := probe_variants_ok env henv npm_variants
        cases b
        · obtain ⟨b2, hb2⟩ := probe_paths_ok env fs henv common_npm_paths
          exact ⟨b2, by rw [hb, hb2]⟩
        · exact ⟨true, by rw [hb]⟩
      · rw [if_neg hm]
        rcases henv name with h | h | h
        · exact ⟨true, by rw [h]⟩
        · exact ⟨false, by rw [h]⟩
        · exact ⟨false, by rw [h]⟩
  · have hn : ¬(lowerStr name = "node".toList ∨ lowerStr name = "nodejs".toList) := by
      intro hc
      rcases hc with hc | hc
      · exact h1 hc
      · exact h2 hc
    unfold check_program_exists
    rw [if_neg hn, if_neg h3, henv]

/-- C7 witness: the amended theorem applied at concrete probes — a
swallowed `CalledProcessError` environment and a swallowed
`FileNotFoundError` for a plain program name. -/
theorem C7_probe_exceptions_amended_witness :
    check_admin_privileges (.error .otherException) = false ∧
    (∃ b, check_program_exists "node".toList (fun _ => some .calledProcessError)
      (fun _ => false) = .ok b) ∧
    check_program_exists "winget".toList (fun _ => some .fileNotFoundError)
      (fun _ => false) = .ok false :=
  ⟨C7_probe_exceptions_amended.1 .otherException,
   C7_probe_exceptions_amended.2.1 "node".toList
     (fun _ => some .calledProcessError) (fun _ => false)
     (fun _ => Or.inr (Or.inl rfl)),
   C7_probe_exceptions_amended.2.2 "winget".toList
     (fun _ => some .fileNotFoundError) (fun _ => false)
     (by decide) (by decide) (by decide) rfl⟩

/-! ### Claim C8 -/

/-- The affirmative condition of `get_confirmation`: empty input, `y`,
or `yes` after lowercasing and stripping. -/
def affirmative_input (r : List Char) : Prop :=
  stripChars (lowerStr r) = [] ∨ stripChars (lowerStr r) = ['y'] ∨
    stripChars (lowerStr r) = "yes".toList

/-- The negative condition of `get_confirmation`: `n` or `no` after
lowercasing and stripping. -/
def negative_input (r : List Char) : Prop :=
  stripChars (lowerStr r) = ['n'] ∨ stripChars (lowerStr r) = "no".toList

instance decidable_affirmative_input (r : List Char) :
    Decidable (affirmative_input r) := by
  unfold affirmative_input
  infer_instance

instance decidable_negative_input (r : List Char) :
    Decidable (negative_input r) := by
  unfold negative_input
  infer_instance

theorem not_affirmative_of_negative {r : List Char} (h : negative_input r) :
    ¬affirmative_input r := by
  unfold affirmative_input
  rcases h with h | h <;> rw [h] <;> decide

/-- C8: `get_confirmation` returns `True` as soon as the head input is
empty or `y`/`yes` (any case, after stripping), `False` as soon as it is
`n`/`no`, re-prompts (recurses on the remaining inputs) on any other
input, and returns no answer at all on a sequence containing only
unrecognised inputs. -/
theorem C8_get_confirmation (r : List Char) (rest inputs : List (List Char)) :
    (affirmative_input r → get_confirmation (r :: rest) = some true) ∧
    (negative_input r → get_confirmation (r :: rest) = some false) ∧
    (¬affirmative_input r → ¬negative_input r →
      get_confirmation (r :: rest) = get_confirmation rest) ∧
    ((∀ x ∈ inputs, ¬affirmative_input x ∧ ¬negative_input x) →
      get_confirmation inputs = none) := by
  refine ⟨fun h => ?_, fun h => ?_, fun ha hn => ?_, fun h => ?_⟩
  · have h' : stripChars (lowerStr r) = [] ∨ stripChars (lowerStr r) = ['y'] ∨
        stripChars (lowerStr r) = "yes".toList := h
    simp only [get_confirmation]
    rw [if_pos h']
  · have h' : stripChars (lowerStr r) = ['n'] ∨
        stripChars (lowerStr r) = "no".toList := h
    have ha' : ¬(stripChars (lowerStr r) = [] ∨ stripChars (lowerStr r) = ['y'] ∨
        stripChars (lowerStr r) = "yes".toList) := not_affirmative_of_negative h
    simp only [get_confirmation]
    rw [if_neg ha', if_pos h']
  · have ha' : ¬(stripChars (lowerStr r) = [] ∨ stripChars (lowerStr r) = ['y'] ∨
        stripChars (lowerStr r) = "yes".toList) := ha
    have hn' : ¬(stripChars (lowerStr r) = ['n'] ∨
        stripChars (lowerStr r) = "no".toList) := hn
    simp only [get_confirmation]
    rw [if_neg ha', if_neg hn']
  · induction inputs with
    | nil => rfl
    | cons x xs ih =>
      obtain ⟨hx, hxs⟩ := List.forall_mem_cons.mp h
      have ha' : ¬(stripChars (lowerStr x) = [] ∨ stripChars (lowerStr x) = ['y'] ∨
          stripChars (lowerStr x) = "yes".toList) := hx.1
      have hn' : ¬(stripChars (lowerStr x) = ['n'] ∨
          stripChars (lowerStr x) = "no".toList) := hx.2
      simp only [get_confirmation]
      rw [if_neg ha', if_neg hn']
      exact ih hxs

/-- C8 witness: the four behaviours at concrete inputs. -/
theorem C8_get_confirmation_witness :
    get_confirmation [" YeS ".toList] = some true ∧
    get_confirmation ["No".toList, "x".toList] = some false ∧
    get_confirmation ["maybe".toList, "".toList] =
      get_confirmation ["".toList] ∧
    get_confirmation ["a".toList, "b".toList] = none :=
  ⟨(C8_get_confirmation " YeS ".toList [] []).1 (by decide),
   (C8_get_confirmation "No".toList ["x".toList] []).2.1 (by decide),
   (C8_get_confirmation "maybe".toList ["".toList] []).2.2.1
     (by decide) (by decide),
   (C8_get_confirmation [] [] ["a".toList, "b".toList]).2.2.2 (by decide)⟩

/-! ### Claim C9 -/

/-- C9: when the confirmation prompt of `install_all_apps` is answered
negatively, the function returns having spawned no installer processes
and the apps list is returned exactly as it was (same entries, same
order). -/
theorem C9_install_all_apps_declined (inputs : List (List Char))
    (apps : List AppEntry) (h : get_confirmation inputs = some false) :
    install_all_apps inputs apps = some ([], apps) := by
  simp [install_all_apps, h]

/-- C9 witness: declining with input `n` on a concrete apps list. -/
theorem C9_install_all_apps_declined_witness :
    install_all_apps ["n".toList]
      [⟨"Git.Git".toList, "Git".toList⟩,
       ⟨"Microsoft.VisualStudioCode".toList, "Visual Studio Code".toList⟩] =
    some ([],
      [⟨"Git.Git".toList, "Git".toList⟩,
       ⟨"Microsoft.VisualStudioCode".toList, "Visual Studio Code".toList⟩]) :=
  C9_install_all_apps_declined ["n".toList] _ (by decide)

/-! ### Claim C10 -/

/-- C10: `create_script` deterministically reports
`<Documents>\AutoHotKey\automation.ahk`, writes exactly
`AHK_SCRIPT_CONTENT` there, and running it a second time overwrites the
file with identical content: the filesystem and the reported path are
unchanged by the second run. -/
theorem C10_create_script_idempotent (documents_folder : List Char) (fs : FS) :
    (create_script true documents_folder fs).2 =
      some (get_script_path documents_folder) ∧
    (create_script true documents_folder fs).1
      (get_script_path documents_folder) = some AHK_SCRIPT_CONTENT ∧
    (create_script true documents_folder
      (create_script true documents_folder fs).1).1 =
      (create_script true documents_folder fs).1 ∧
    (create_script true documents_folder
      (create_script true documents_folder fs).1).2 =
      (create_script true documents_folder fs).2 ∧
    get_script_path documents_folder =
      documents_folder ++ "\\AutoHotKey\\automation.ahk".toList := by
  refine ⟨rfl, by simp [create_script], ?_, rfl, ?_⟩
  · funext p
    by_cases hp : p = get_script_path documents_folder <;>
      simp [create_script, hp]
  · simp only [get_script_path, os_path_join, ahk_script_name,
      List.append_assoc]
    congr 1
